import Mathlib

/-!
Verification of the ELD (Electronic Logging Device) duty-cycle log synthesizer
from `src/eld_app/services.py`.

The Python code works on decimal hours (floats); the embedding uses `ℚ`.
`datetime.now()` (services.py lines 115-116) is modelled by the explicit
parameters `start_date` / `start_time_decimal`, following the spec's design
note that treats the simulation start as an explicit input.  The Python
`while drive_time_to_add > 0` loop is modelled with an explicit `fuel`
bound; exhausting the fuel yields `SimError.outOfFuel`, and out-of-range
waypoint list accesses (Python `IndexError`) yield
`SimError.indexOutOfRange`.  Every theorem about the loop is proved for all
fuel values, hence in particular for any fuel large enough to reproduce the
terminating Python run.
-/

namespace ELD

/-- Duty statuses stored by `LogEntry.duty_status` (models.py choices). -/
inductive DutyStatus
  | off_duty | sleeper_berth | driving | on_duty_not_driving
deriving DecidableEq

/-- Trip context: the three location strings used by the simulator. -/
structure Trip where
  current_location : String
  pickup_location : String
  dropoff_location : String
deriving DecidableEq

/-- One leg of the route (`route_data['segments']` element). -/
structure RouteSegment where
  duration_hours : ℚ
  distance_miles : ℚ
deriving DecidableEq

/-- A named waypoint (`route_data['waypoints']` element; coordinates are
never read by the simulator and are omitted). -/
structure Waypoint where
  name : String
deriving DecidableEq

/-- The route dictionary consumed by `generate_log_entries` (geometry is
never read by the simulator and is omitted). -/
structure RouteData where
  total_distance : ℚ
  total_duration : ℚ
  segments : List RouteSegment
  waypoints : List Waypoint
deriving DecidableEq

/-- A log entry as built by `ELDService._create_log_entry`.  The stored
`start_time` / `end_time` are the `(hour, minute)` pairs produced by
`_decimal_to_time`; the fields `start_decimal` / `end_decimal` additionally
record the decimal-hour arguments the simulator passed in (ghost fields,
used to state interval properties). -/
structure LogEntry where
  trip : Trip
  date : ℤ
  start_decimal : ℚ
  end_decimal : ℚ
  start_time : ℕ × ℕ
  end_time : ℕ × ℕ
  duty_status : DutyStatus
  location : String
  remarks : String
deriving DecidableEq

/-- `self.max_drive_hours` (services.py line 105). -/
def max_drive_hours : ℚ := 11

/-- `self.max_duty_hours` (line 106). -/
def max_duty_hours : ℚ := 14

/-- `self.required_break_after_drive` (line 107). -/
def required_break_after_drive : ℚ := 8

/-- `self.break_duration` (line 108). -/
def break_duration : ℚ := 1/2

/-- `self.off_duty_required` (line 109). -/
def off_duty_required : ℚ := 10

/-- `self.pickup_dropoff_duration` (line 110). -/
def pickup_dropoff_duration : ℚ := 1

/-- `ELDService._decimal_to_time` (lines 210-214): `hour = int(decimal)`,
`minute = int((decimal - hour) * 60)`, returning `time(hour % 24, minute)`.
All decimals the simulator produces are nonnegative, where Python `int`
truncation agrees with `Int.floor`. -/
def decimal_to_time (decimal_hour : ℚ) : ℕ × ℕ :=
  let hour : ℤ := ⌊decimal_hour⌋
  ((hour % 24).toNat, (⌊(decimal_hour - hour) * 60⌋).toNat)

/-- `ELDService._create_log_entry` (lines 196-208). -/
def create_log_entry (trip : Trip) (status : DutyStatus) (date : ℤ)
    (start_decimal end_decimal : ℚ) (location remarks : String) : LogEntry :=
  { trip := trip, date := date,
    start_decimal := start_decimal, end_decimal := end_decimal,
    start_time := decimal_to_time start_decimal,
    end_time := decimal_to_time end_decimal,
    duty_status := status, location := location, remarks := remarks }

/-- The mutable locals of `generate_log_entries`, threaded explicitly. -/
structure SimState where
  log_entries : List LogEntry
  current_date : ℤ
  current_time_decimal : ℚ
  daily_drive_hours : ℚ
  daily_duty_hours : ℚ
  hours_since_break : ℚ

/-- Failure modes of the embedding: an out-of-bounds waypoint access
(Python would raise `IndexError`) or exhaustion of the loop fuel. -/
inductive SimError
  | indexOutOfRange | outOfFuel
deriving DecidableEq

/-- `route_data['waypoints'][i]`: list indexing, erroring out of bounds. -/
def getWp (wps : List Waypoint) (i : ℕ) : Except SimError Waypoint :=
  match wps.get? i with
  | some w => .ok w
  | none => .error .indexOutOfRange

/-- Day transition (lines 158-166): advance the date, zero the clock and the
three accumulators, append the mandatory rest entry at the destination
waypoint, and advance the clock by `off_duty_required`. -/
def day_rollover (trip : Trip) (w : Waypoint) (st : SimState) : SimState :=
  let d := st.current_date + 1
  { log_entries := st.log_entries ++
      [create_log_entry trip .off_duty d 0 off_duty_required w.name
        "Required 10-hour rest period"],
    current_date := d,
    current_time_decimal := off_duty_required,
    daily_drive_hours := 0,
    daily_duty_hours := 0,
    hours_since_break := 0 }

/-- Append a driving entry from the current clock position to `endt`
(lines 153 and 172 share this shape). -/
def log_driving (trip : Trip) (wi wi1 : Waypoint) (st : SimState) (endt : ℚ) : SimState :=
  { st with log_entries := st.log_entries ++
      [create_log_entry trip .driving st.current_date st.current_time_decimal endt
        wi.name ("Driving towards " ++ wi1.name)] }

/-- One iteration of the `while drive_time_to_add > 0` loop (lines 140-185),
run only when the remaining time is positive: returns the updated remaining
driving time and state.  The boundary branch logs a driving entry up to
midnight if any time is left in the day, then performs the day rollover
(`continue`); the normal branch logs the chunk and possibly the mandatory
30-minute break. -/
def drive_step (trip : Trip) (wps : List Waypoint) (i : ℕ)
    (drive_time_to_add : ℚ) (st : SimState) : Except SimError (ℚ × SimState) :=
  let hours_until_break := required_break_after_drive - st.hours_since_break
  let drive_segment_duration := min drive_time_to_add hours_until_break
  if st.current_time_decimal + drive_segment_duration > 24 ∨
      st.daily_drive_hours + drive_segment_duration > max_drive_hours ∨
      st.daily_duty_hours + drive_segment_duration > max_duty_hours then
    let time_to_midnight := 24 - st.current_time_decimal
    if time_to_midnight > 0 then
      match getWp wps i, getWp wps (i + 1) with
      | .ok wi, .ok wi1 =>
          let st1 : SimState :=
            { (log_driving trip wi wi1 st 24) with
              daily_drive_hours := st.daily_drive_hours + time_to_midnight,
              daily_duty_hours := st.daily_duty_hours + time_to_midnight }
          .ok (drive_time_to_add - time_to_midnight, day_rollover trip wi1 st1)
      | .error e, _ => .error e
      | _, .error e => .error e
    else
      match getWp wps (i + 1) with
      | .ok wi1 => .ok (drive_time_to_add, day_rollover trip wi1 st)
      | .error e => .error e
  else
    match getWp wps i, getWp wps (i + 1) with
    | .ok wi, .ok wi1 =>
        let st1 : SimState :=
          { (log_driving trip wi wi1 st
              (st.current_time_decimal + drive_segment_duration)) with
            current_time_decimal := st.current_time_decimal + drive_segment_duration,
            daily_drive_hours := st.daily_drive_hours + drive_segment_duration,
            daily_duty_hours := st.daily_duty_hours + drive_segment_duration,
            hours_since_break := st.hours_since_break + drive_segment_duration }
        let st2 : SimState :=
          if st1.hours_since_break ≥ required_break_after_drive then
            { st1 with
              log_entries := st1.log_entries ++
                [create_log_entry trip .off_duty st1.current_date
                  st1.current_time_decimal
                  (st1.current_time_decimal + break_duration) "Rest Area"
                  "Required 30-minute break"],
              current_time_decimal := st1.current_time_decimal + break_duration,
              daily_duty_hours := st1.daily_duty_hours + break_duration,
              hours_since_break := 0 }
          else st1
        .ok (drive_time_to_add - drive_segment_duration, st2)
    | .error e, _ => .error e
    | _, .error e => .error e

/-- The `while drive_time_to_add > 0` loop of `generate_log_entries`
(lines 140-185), for segment index `i`, with an explicit fuel bound. -/
def drive_loop (trip : Trip) (wps : List Waypoint) (i : ℕ) :
    ℕ → ℚ → SimState → Except SimError SimState
  | 0, drive_time_to_add, st =>
      if drive_time_to_add > 0 then .error .outOfFuel else .ok st
  | fuel + 1, drive_time_to_add, st =>
      if drive_time_to_add > 0 then
        match drive_step trip wps i drive_time_to_add st with
        | .ok (drive_time_to_add', st') => drive_loop trip wps i fuel drive_time_to_add' st'
        | .error e => .error e
      else .ok st

/-- The loading/unloading stop emitted before every non-first segment
(lines 131-135): a 1 h `on_duty_not_driving` entry at waypoint `i`,
advancing the clock and the duty accumulator. -/
def load_stop (trip : Trip) (wps : List Waypoint) (i : ℕ) (st : SimState) :
    Except SimError SimState :=
  if i = 0 then .ok st
  else
    match getWp wps i with
    | .ok wi => .ok { st with
        log_entries := st.log_entries ++
          [create_log_entry trip .on_duty_not_driving st.current_date
            st.current_time_decimal
            (st.current_time_decimal + pickup_dropoff_duration)
            wi.name "Loading/unloading activities"],
        current_time_decimal := st.current_time_decimal + pickup_dropoff_duration,
        daily_duty_hours := st.daily_duty_hours + pickup_dropoff_duration }
    | .error e => .error e

/-- The `for i, segment in enumerate(route_data['segments'])` loop
(lines 128-185): the loading/unloading stop for every non-first segment,
then the driving loop for the segment. -/
def segment_loop (trip : Trip) (wps : List Waypoint) (fuel : ℕ) :
    List RouteSegment → ℕ → SimState → Except SimError SimState
  | [], _, st => .ok st
  | seg :: rest, i, st =>
      match load_stop trip wps i st with
      | .error e => .error e
      | .ok st1 =>
          match drive_loop trip wps i fuel seg.duration_hours st1 with
          | .error e => .error e
          | .ok st2 => segment_loop trip wps fuel rest (i + 1) st2

/-- `ELDService.generate_log_entries` (lines 112-194).  The wall-clock
start read from `datetime.now()` is passed in as `start_date` and
`start_time_decimal`; `current_cycle_hours` is accepted and, as in the
source, never read. -/
def generate_log_entries (trip : Trip) (route_data : RouteData)
    (current_cycle_hours : ℚ) (start_date : ℤ) (start_time_decimal : ℚ)
    (fuel : ℕ) : Except SimError (List LogEntry) :=
  let init_entries : List LogEntry :=
    if start_time_decimal > 0 then
      [create_log_entry trip .off_duty start_date 0 start_time_decimal
        trip.current_location "Off duty before trip start"]
    else []
  let st0 : SimState :=
    ⟨init_entries, start_date, start_time_decimal, 0, 0, 0⟩
  match segment_loop trip route_data.waypoints fuel route_data.segments 0 st0 with
  | .error e => .error e
  | .ok st =>
      if st.current_time_decimal < 24 then
        .ok (st.log_entries ++
          [create_log_entry trip .off_duty st.current_date st.current_time_decimal 24
            trip.dropoff_location "Trip completed, off duty"])
      else .ok st.log_entries

/-- `RouteService._get_mock_route` (lines 84-99): the static fallback route,
two segments and three waypoints. -/
def get_mock_route (current_loc pickup_loc dropoff_loc : String) : RouteData :=
  { total_distance := 100, total_duration := 2,
    segments := [⟨4/5, 40⟩, ⟨6/5, 60⟩],
    waypoints := [⟨current_loc⟩, ⟨pickup_loc⟩, ⟨dropoff_loc⟩] }

/-- Per-status accumulated hours of a daily sheet (`daily_logs[...]['totals']`). -/
structure Totals where
  off_duty : ℚ
  sleeper_berth : ℚ
  driving : ℚ
  on_duty_not_driving : ℚ
deriving DecidableEq

/-- Look up the accumulator for a status. -/
def Totals.get : Totals → DutyStatus → ℚ
  | t, .off_duty => t.off_duty
  | t, .sleeper_berth => t.sleeper_berth
  | t, .driving => t.driving
  | t, .on_duty_not_driving => t.on_duty_not_driving

/-- `daily_logs[date_str]['totals'][entry.duty_status] += duration` (line 250). -/
def Totals.add (t : Totals) (s : DutyStatus) (q : ℚ) : Totals :=
  match s with
  | .off_duty => { t with off_duty := t.off_duty + q }
  | .sleeper_berth => { t with sleeper_berth := t.sleeper_berth + q }
  | .driving => { t with driving := t.driving + q }
  | .on_duty_not_driving => { t with on_duty_not_driving := t.on_duty_not_driving + q }

/-- `round(duration, 2)` (line 247).  Python rounds half to even, but a
duration derived from whole minutes is `k/60` hours whose hundredfold is
`5k/3`, never an exact half, so half-up rounding coincides with it on every
value this program produces. -/
def round2 (q : ℚ) : ℚ := (round (q * 100) : ℤ) / 100

/-- The duration computation of `generate_daily_log_sheets` (lines 234-239):
minutes from the stored times, `+ 24*60` if the end is formatted before the
start (midnight crossing), divided by 60. -/
def duration_of (entry : LogEntry) : ℚ :=
  let start_minutes : ℤ := entry.start_time.1 * 60 + entry.start_time.2
  let end_minutes0 : ℤ := entry.end_time.1 * 60 + entry.end_time.2
  let end_minutes : ℤ :=
    if end_minutes0 < start_minutes then end_minutes0 + 24 * 60 else end_minutes0
  ((end_minutes - start_minutes : ℤ) : ℚ) / 60

/-- One record of `segments` in a daily sheet (lines 241-248). -/
structure SegmentSummary where
  id : ℕ
  status : DutyStatus
  note : String
  start_time : ℕ × ℕ
  end_time : ℕ × ℕ
  duration_hours : ℚ
deriving DecidableEq

/-- One element of the `daily_logs` mapping (lines 222-232), keyed by the
entry's date. -/
structure DailyLogSheet where
  date_start : ℤ
  segments : List SegmentSummary
  totals : Totals
deriving DecidableEq

/-- A freshly initialised sheet (lines 223-232). -/
def empty_sheet (d : ℤ) : DailyLogSheet :=
  { date_start := d, segments := [], totals := ⟨0, 0, 0, 0⟩ }

/-- The per-entry body of the aggregation loop (lines 234-250): append the
summary record (index, status, note, stored times, rounded duration) and
accumulate the unrounded duration into the status total. -/
def add_to_sheet (entry : LogEntry) (s : DailyLogSheet) : DailyLogSheet :=
  let duration := duration_of entry
  { s with
    segments := s.segments ++
      [{ id := s.segments.length, status := entry.duty_status, note := entry.remarks,
         start_time := entry.start_time, end_time := entry.end_time,
         duration_hours := round2 duration }],
    totals := s.totals.add entry.duty_status duration }

/-- Route one entry to its date's sheet, creating the sheet at the end of
the list on first sight of the date (Python dict insertion order). -/
def insert_entry : List DailyLogSheet → LogEntry → List DailyLogSheet
  | [], e => [add_to_sheet e (empty_sheet e.date)]
  | s :: rest, e =>
      if s.date_start = e.date then add_to_sheet e s :: rest
      else s :: insert_entry rest e

/-- `ELDService.generate_daily_log_sheets` (lines 216-252). -/
def generate_daily_log_sheets (log_entries : List LogEntry) : List DailyLogSheet :=
  log_entries.foldl insert_entry []

/-! Definitions used to state the claims. -/

/-- The entries of a log that carry a given calendar date, in emission order. -/
def entriesOn (d : ℤ) (L : List LogEntry) : List LogEntry :=
  L.filter (fun e => decide (e.date = d))

/-- Summed decimal-hour duration of the entries of one date with one status. -/
def status_duration_sum (L : List LogEntry) (d : ℤ) (s : DutyStatus) : ℚ :=
  (((entriesOn d L).filter (fun e => decide (e.duty_status = s))).map
    (fun e => e.end_decimal - e.start_decimal)).sum

/-- Unrounded per-status total of the aggregator over one date. -/
def status_total (L : List LogEntry) (d : ℤ) (s : DutyStatus) : ℚ :=
  (((entriesOn d L).filter (fun e => decide (e.duty_status = s))).map duration_of).sum

/-- Consecutive entries abut: each entry ends where the next begins. -/
def contiguous (l : List LogEntry) : Prop :=
  l.Chain' (fun a b => a.end_decimal = b.start_decimal)

/-- Invariant tying the emitted entries to the simulation clock: per date
the entries chain contiguously from `00:00`, every date before the current
one is closed out at or past `24:00`, and the current date's last entry
ends at the current clock value. -/
structure EntInv (d0 : ℤ) (es : List LogEntry) (cd : ℤ) (ct : ℚ) : Prop where
  dates_lb : ∀ e ∈ es, d0 ≤ e.date
  dates_ub : ∀ e ∈ es, e.date ≤ cd
  pos : ∀ e ∈ es, e.start_decimal < e.end_decimal
  chain : ∀ d, contiguous (entriesOn d es)
  head0 : ∀ d e, (entriesOn d es).head? = some e → e.start_decimal = 0
  closed : ∀ d, d0 ≤ d → d < cd →
    ∃ e, (entriesOn d es).getLast? = some e ∧ 24 ≤ e.end_decimal
  cur_last : ∀ e, (entriesOn cd es).getLast? = some e → e.end_decimal = ct
  cur_empty : entriesOn cd es = [] → ct = 0
  d0_le : d0 ≤ cd

/-- Full loop invariant of the simulation: `EntInv` for the entry list plus
the scalar facts about the break accumulator and the fresh-day state. -/
def DInv (d0 : ℤ) (st : SimState) : Prop :=
  EntInv d0 st.log_entries st.current_date st.current_time_decimal ∧
  0 ≤ st.hours_since_break ∧
  st.hours_since_break < required_break_after_drive ∧
  (entriesOn st.current_date st.log_entries = [] →
    st.daily_drive_hours = 0 ∧ st.daily_duty_hours = 0)

/-- Correctness of one sheet relative to the full entry list: totals are
the unrounded per-status sums and the listed durations are the rounded
per-entry durations, in entry order. -/
def sheet_ok (L : List LogEntry) (s : DailyLogSheet) : Prop :=
  (∀ st, s.totals.get st = status_total L s.date_start st) ∧
  s.segments.map (fun g => g.duration_hours) =
    (entriesOn s.date_start L).map (fun e => round2 (duration_of e))

/-- Invariant of the aggregation fold: distinct sheet dates, every sheet
correct for the entries seen so far, and every seen date owning a sheet. -/
def sheets_ok (L : List LogEntry) (acc : List DailyLogSheet) : Prop :=
  (acc.map (fun s => s.date_start)).Nodup ∧
  (∀ s ∈ acc, sheet_ok L s) ∧
  (∀ e ∈ L, e.date ∈ acc.map (fun s => s.date_start))

/-! Concrete inputs and runs used by the scenario claims. -/

/-- A fixed trip context for the concrete scenarios. -/
def tripX : Trip := ⟨"Origin City", "Pickup City", "Dropoff City"⟩

/-- Two waypoints, as for a one-segment route. -/
def wpsX : List Waypoint := [⟨"Origin City"⟩, ⟨"Dropoff City"⟩]

/-- A one-segment route with the given driving duration. -/
def routeX (q : ℚ) : RouteData := ⟨100, q, [⟨q, 100⟩], wpsX⟩

/-- A hand-made entry used to exercise the aggregator. -/
def entW : LogEntry :=
  ⟨tripX, 0, 0, 6, (0, 0), (6, 0), .driving, "Origin City", "witness entry"⟩

/-- The sheet the aggregator builds from `entW` alone. -/
def sheetW : DailyLogSheet := add_to_sheet entW (empty_sheet 0)

/-- Expected log of Scenario A: one 2 h segment, start 08:00. -/
def logA : List LogEntry :=
  [create_log_entry tripX .off_duty 0 0 8 "Origin City" "Off duty before trip start",
   create_log_entry tripX .driving 0 8 10 "Origin City" ("Driving towards " ++ "Dropoff City"),
   create_log_entry tripX .off_duty 0 10 24 "Dropoff City" "Trip completed, off duty"]

/-- Emitted log for a single 12 h segment starting at 00:00 (Scenario C):
8 h of driving, the 30-minute break, then — when the 11 h ceiling check
fires — driving logged all the way to midnight (15.5 h), the rollover rest,
and the closing off-duty on the second date. -/
def logC : List LogEntry :=
  [create_log_entry tripX .driving 0 0 8 "Origin City" ("Driving towards " ++ "Dropoff City"),
   create_log_entry tripX .off_duty 0 8 (17/2) "Rest Area" "Required 30-minute break",
   create_log_entry tripX .driving 0 (17/2) 24 "Origin City" ("Driving towards " ++ "Dropoff City"),
   create_log_entry tripX .off_duty 1 0 10 "Dropoff City" "Required 10-hour rest period",
   create_log_entry tripX .off_duty 1 10 24 "Dropoff City" "Trip completed, off duty"]

/-- Emitted log for a single 8 h segment starting at 16:00: the driving ends
exactly at midnight and the mandatory break is appended at 24.0-24.5. -/
def logM : List LogEntry :=
  [create_log_entry tripX .off_duty 0 0 16 "Origin City" "Off duty before trip start",
   create_log_entry tripX .driving 0 16 24 "Origin City" ("Driving towards " ++ "Dropoff City"),
   create_log_entry tripX .off_duty 0 24 (49/2) "Rest Area" "Required 30-minute break"]

/-- Emitted log for an empty segment list with start 08:00: the two framing
off-duty entries, with no rejection of the input. -/
def logE : List LogEntry :=
  [create_log_entry tripX .off_duty 0 0 8 "Origin City" "Off duty before trip start",
   create_log_entry tripX .off_duty 0 8 24 "Dropoff City" "Trip completed, off duty"]

/-! Concrete evaluation lemmas shared by the scenario claims. -/

/-- Scenario A run. -/
lemma runA : generate_log_entries tripX (routeX 2) 0 0 8 1 = .ok logA := by
  norm_num [generate_log_entries, segment_loop, load_stop, drive_loop, drive_step, getWp, log_driving,
    routeX, wpsX, tripX, logA, min_def, max_drive_hours, max_duty_hours,
    required_break_after_drive]

/-- Scenario C run (12 h segment from 00:00). -/
lemma runC : generate_log_entries tripX (routeX 12) 0 0 0 2 = .ok logC := by
  norm_num [generate_log_entries, segment_loop, load_stop, drive_loop, drive_step, getWp, log_driving,
    day_rollover, routeX, wpsX, tripX, logC, min_def, max_drive_hours,
    max_duty_hours, required_break_after_drive, break_duration, off_duty_required]

/-- Midnight-break run (8 h segment from 16:00). -/
lemma runM : generate_log_entries tripX (routeX 8) 0 0 16 1 = .ok logM := by
  norm_num [generate_log_entries, segment_loop, load_stop, drive_loop, drive_step, getWp, log_driving,
    routeX, wpsX, tripX, logM, min_def, max_drive_hours, max_duty_hours,
    required_break_after_drive, break_duration]

/-- Empty-segment-list run. -/
lemma runE : generate_log_entries tripX ⟨100, 0, [], wpsX⟩ 0 0 8 1 = .ok logE := by
  norm_num [generate_log_entries, segment_loop, load_stop, tripX, wpsX, logE]

/-- A loop over a nonpositive remaining duration exits at once, for any fuel. -/
lemma drive_loop_nonpos {q : ℚ} (hq : ¬ q > 0) (trip : Trip) (wps : List Waypoint)
    (i fuel : ℕ) (st : SimState) : drive_loop trip wps i fuel q st = .ok st := by
  cases fuel <;> simp [drive_loop, hq]

/-- Evaluation helper for `decimal_to_time` at a concrete argument. -/
lemma decimal_to_time_eval (d : ℚ) (h m : ℤ) (hh : ⌊d⌋ = h)
    (hm : ⌊(d - (h : ℚ)) * 60⌋ = m) :
    decimal_to_time d = ((h % 24).toNat, m.toNat) := by
  simp only [decimal_to_time, hh, hm]

lemma dtt0 : decimal_to_time 0 = (0, 0) := by
  rw [decimal_to_time_eval 0 0 0 (by norm_num [Int.floor_eq_iff]) (by norm_num [Int.floor_eq_iff])]
  decide

lemma dtt8 : decimal_to_time 8 = (8, 0) := by
  rw [decimal_to_time_eval 8 8 0 (by norm_num [Int.floor_eq_iff]) (by norm_num [Int.floor_eq_iff])]
  decide

lemma dtt10 : decimal_to_time 10 = (10, 0) := by
  rw [decimal_to_time_eval 10 10 0 (by norm_num [Int.floor_eq_iff]) (by norm_num [Int.floor_eq_iff])]
  decide

lemma dtt24 : decimal_to_time 24 = (0, 0) := by
  rw [decimal_to_time_eval 24 24 0 (by norm_num [Int.floor_eq_iff]) (by norm_num [Int.floor_eq_iff])]
  decide

/-! List bookkeeping for the per-date view of an entry list. -/

lemma entriesOn_append_of_eq {e : LogEntry} {d : ℤ} (h : e.date = d) (es : List LogEntry) :
    entriesOn d (es ++ [e]) = entriesOn d es ++ [e] := by
  simp [entriesOn, List.filter_append, h]

lemma entriesOn_append_of_ne {e : LogEntry} {d : ℤ} (h : ¬ e.date = d) (es : List LogEntry) :
    entriesOn d (es ++ [e]) = entriesOn d es := by
  simp [entriesOn, List.filter_append, h]

lemma mem_of_mem_entriesOn {e : LogEntry} {d : ℤ} {es : List LogEntry}
    (h : e ∈ entriesOn d es) : e ∈ es ∧ e.date = d := by
  have := List.mem_filter.1 h
  simpa using this

lemma entriesOn_eq_nil {es : List LogEntry} {d : ℤ}
    (h : ∀ e ∈ es, e.date ≠ d) : entriesOn d es = [] := by
  rw [entriesOn, List.filter_eq_nil_iff]
  intro e he
  simpa using h e he

lemma entriesOn_ne_nil_concat (es : List LogEntry) (e : LogEntry) :
    entriesOn e.date (es ++ [e]) ≠ [] := by
  rw [entriesOn_append_of_eq rfl]
  simp

/-- Appending an entry that starts at the current clock value on the current
date preserves the entry-list invariant and moves the clock to its end. -/
lemma EntInv.append {d0 cd : ℤ} {es : List LogEntry} {ct q : ℚ}
    (h : EntInv d0 es cd ct) (trip : Trip) (status : DutyStatus) (loc rem : String)
    (hlt : ct < q) :
    EntInv d0 (es ++ [create_log_entry trip status cd ct q loc rem]) cd q := by
  set e : LogEntry := create_log_entry trip status cd ct q loc rem with he
  have hdate : e.date = cd := rfl
  have hstart : e.start_decimal = ct := rfl
  have hend : e.end_decimal = q := rfl
  refine ⟨?_, ?_, ?_, ?_, ?_, ?_, ?_, ?_, h.d0_le⟩
  · intro f hf
    rcases List.mem_append.1 hf with hf | hf
    · exact h.dates_lb f hf
    · simp only [List.mem_singleton] at hf
      subst hf; rw [hdate]; exact h.d0_le
  · intro f hf
    rcases List.mem_append.1 hf with hf | hf
    · exact h.dates_ub f hf
    · simp only [List.mem_singleton] at hf
      subst hf; rw [hdate]
  · intro f hf
    rcases List.mem_append.1 hf with hf | hf
    · exact h.pos f hf
    · simp only [List.mem_singleton] at hf
      subst hf; rw [hstart, hend]; exact hlt
  · intro d
    by_cases hd : e.date = d
    · have hdc : d = cd := by rw [← hd, hdate]
      subst hdc
      rw [entriesOn_append_of_eq hd]
      rw [contiguous, List.chain'_append]
      refine ⟨h.chain d, List.chain'_singleton e, ?_⟩
      intro x hx y hy
      simp only [List.head?_cons, Option.mem_def, Option.some.injEq] at hy
      subst hy
      rw [hstart]
      exact h.cur_last x hx
    · rw [entriesOn_append_of_ne hd]
      exact h.chain d
  · intro d f hf
    by_cases hd : e.date = d
    · have hdc : d = cd := by rw [← hd, hdate]
      subst hdc
      rw [entriesOn_append_of_eq hd] at hf
      cases hnil : entriesOn d es with
      | nil =>
          rw [hnil] at hf
          simp only [List.nil_append, List.head?_cons, Option.some.injEq] at hf
          subst hf
          rw [hstart]
          exact h.cur_empty hnil
      | cons a l =>
          rw [hnil] at hf
          simp only [List.cons_append, List.head?_cons, Option.some.injEq] at hf
          subst hf
          exact h.head0 d a (by rw [hnil]; rfl)
    · rw [entriesOn_append_of_ne hd] at hf
      exact h.head0 d f hf
  · intro d hd0 hdc
    have hd : ¬ e.date = d := by rw [hdate]; exact fun hq => absurd hq (by omega)
    rw [entriesOn_append_of_ne hd]
    exact h.closed d hd0 hdc
  · intro f hf
    rw [entriesOn_append_of_eq hdate, List.getLast?_concat] at hf
    simp only [Option.some.injEq] at hf
    subst hf
    exact hend
  · intro habs
    exact absurd habs (by rw [← hdate]; exact entriesOn_ne_nil_concat es e)

/-- The day rollover preserves the invariant: the finished date must be
nonempty and closed out at or past `24:00`, and the new date opens with one
entry covering `[0, q]`. -/
lemma EntInv.rollover {d0 cd : ℤ} {es : List LogEntry} {ct q : ℚ}
    (h : EntInv d0 es cd ct) (hct : 24 ≤ ct) (hne : entriesOn cd es ≠ [])
    (trip : Trip) (loc rem : String) (hq : 0 < q) :
    EntInv d0 (es ++ [create_log_entry trip .off_duty (cd + 1) 0 q loc rem])
      (cd + 1) q := by
  set e : LogEntry := create_log_entry trip .off_duty (cd + 1) 0 q loc rem with he
  have hdate : e.date = cd + 1 := rfl
  have hstart : e.start_decimal = 0 := rfl
  have hend : e.end_decimal = q := rfl
  have hnil1 : entriesOn (cd + 1) es = [] := by
    refine entriesOn_eq_nil ?_
    intro f hf
    have := h.dates_ub f hf
    omega
  refine ⟨?_, ?_, ?_, ?_, ?_, ?_, ?_, ?_, by have := h.d0_le; omega⟩
  · intro f hf
    rcases List.mem_append.1 hf with hf | hf
    · exact h.dates_lb f hf
    · simp only [List.mem_singleton] at hf
      subst hf; rw [hdate]; have := h.d0_le; omega
  · intro f hf
    rcases List.mem_append.1 hf with hf | hf
    · have := h.dates_ub f hf; omega
    · simp only [List.mem_singleton] at hf
      subst hf; rw [hdate]
  · intro f hf
    rcases List.mem_append.1 hf with hf | hf
    · exact h.pos f hf
    · simp only [List.mem_singleton] at hf
      subst hf; rw [hstart, hend]; exact hq
  · intro d
    by_cases hd : e.date = d
    · rw [entriesOn_append_of_eq hd]
      rw [← hd, hdate, hnil1, List.nil_append]
      exact List.chain'_singleton e
    · rw [entriesOn_append_of_ne hd]
      exact h.chain d
  · intro d f hf
    by_cases hd : e.date = d
    · rw [entriesOn_append_of_eq hd, ← hd, hdate, hnil1, List.nil_append] at hf
      simp only [List.head?_cons, Option.some.injEq] at hf
      subst hf; exact hstart
    · rw [entriesOn_append_of_ne hd] at hf
      exact h.head0 d f hf
  · intro d hd0 hdlt
    have hd : ¬ e.date = d := by rw [hdate]; omega
    rw [entriesOn_append_of_ne hd]
    rcases lt_or_eq_of_le (Int.lt_add_one_iff.1 hdlt) with hdc | hdc
    · exact h.closed d hd0 hdc
    · subst hdc
      obtain ⟨x, hx⟩ := Option.isSome_iff_exists.1 (List.getLast?_isSome.2 hne)
      exact ⟨x, hx, by rw [h.cur_last x hx]; exact hct⟩
  · intro f hf
    rw [entriesOn_append_of_eq hdate, hnil1, List.nil_append] at hf
    simp only [List.getLast?_singleton, Option.some.injEq] at hf
    subst hf; exact hend
  · intro habs
    exact absurd habs (by rw [← hdate]; exact entriesOn_ne_nil_concat es e)

/-- One iteration of the driving loop preserves the simulation invariant. -/
lemma drive_step_DInv {d0 : ℤ} {trip : Trip} {wps : List Waypoint} {i : ℕ}
    {rem rem' : ℚ} {st st' : SimState}
    (hrem : 0 < rem) (hInv : DInv d0 st)
    (hok : drive_step trip wps i rem st = .ok (rem', st')) : DInv d0 st' := by
  obtain ⟨hE, hsb0, hsb8, hempty⟩ := hInv
  simp only [drive_step] at hok
  set chunk := min rem (required_break_after_drive - st.hours_since_break) with hchunk
  have hchunk_le : chunk ≤ required_break_after_drive - st.hours_since_break :=
    min_le_right _ _
  have hchunk8 : chunk ≤ (8 : ℚ) := by
    rw [required_break_after_drive] at hchunk_le
    linarith
  have hchunk_pos : 0 < chunk := lt_min hrem (sub_pos.2 hsb8)
  by_cases htrig : st.current_time_decimal + chunk > 24 ∨
      st.daily_drive_hours + chunk > max_drive_hours ∨
      st.daily_duty_hours + chunk > max_duty_hours
  · rw [if_pos htrig] at hok
    have hne : entriesOn st.current_date st.log_entries ≠ [] := by
      intro hnil
      have hct0 : st.current_time_decimal = 0 := hE.cur_empty hnil
      obtain ⟨hdd, hduty⟩ := hempty hnil
      rw [hct0, hdd, hduty, max_drive_hours, max_duty_hours] at htrig
      rcases htrig with hx | hx | hx <;> linarith
    by_cases h24 : 24 - st.current_time_decimal > 0
    · rw [if_pos h24] at hok
      cases hwi : getWp wps i with
      | error e => rw [hwi] at hok; simp at hok
      | ok wi =>
        cases hwi1 : getWp wps (i + 1) with
        | error e => rw [hwi, hwi1] at hok; simp at hok
        | ok wi1 =>
          rw [hwi, hwi1] at hok
          simp only [Except.ok.injEq, Prod.mk.injEq] at hok
          obtain ⟨hrem', hst'⟩ := hok
          subst hst'
          have hE1 : EntInv d0 (st.log_entries ++
              [create_log_entry trip .driving st.current_date st.current_time_decimal 24
                wi.name ("Driving towards " ++ wi1.name)]) st.current_date 24 :=
            hE.append trip .driving wi.name ("Driving towards " ++ wi1.name)
              (by linarith)
          have hne1 := entriesOn_ne_nil_concat st.log_entries
            (create_log_entry trip .driving st.current_date st.current_time_decimal 24
              wi.name ("Driving towards " ++ wi1.name))
          have hE2 := hE1.rollover le_rfl hne1 trip wi1.name "Required 10-hour rest period"
            (q := off_duty_required) (by rw [off_duty_required]; norm_num)
          refine ⟨?_, le_rfl, by norm_num [day_rollover, required_break_after_drive], ?_⟩
          · simpa [day_rollover, log_driving] using hE2
          · intro habs
            exact absurd habs (by
              simpa [day_rollover, log_driving] using
                entriesOn_ne_nil_concat (st.log_entries ++
                  [create_log_entry trip .driving st.current_date st.current_time_decimal 24
                    wi.name ("Driving towards " ++ wi1.name)])
                  (create_log_entry trip .off_duty (st.current_date + 1) 0 off_duty_required
                    wi1.name "Required 10-hour rest period"))
    · rw [if_neg h24] at hok
      cases hwi1 : getWp wps (i + 1) with
      | error e => rw [hwi1] at hok; simp at hok
      | ok wi1 =>
        rw [hwi1] at hok
        simp only [Except.ok.injEq, Prod.mk.injEq] at hok
        obtain ⟨hrem', hst'⟩ := hok
        subst hst'
        have hct : (24 : ℚ) ≤ st.current_time_decimal := by
          simp only [gt_iff_lt, sub_pos, not_lt] at h24
          exact h24
        have hE2 := hE.rollover hct hne trip wi1.name "Required 10-hour rest period"
          (q := off_duty_required) (by rw [off_duty_required]; norm_num)
        refine ⟨?_, le_rfl, by norm_num [day_rollover, required_break_after_drive], ?_⟩
        · simpa [day_rollover] using hE2
        · intro habs
          exact absurd habs (by
            simpa [day_rollover] using
              entriesOn_ne_nil_concat st.log_entries
                (create_log_entry trip .off_duty (st.current_date + 1) 0 off_duty_required
                  wi1.name "Required 10-hour rest period"))
  · rw [if_neg htrig] at hok
    cases hwi : getWp wps i with
    | error e => rw [hwi] at hok; simp at hok
    | ok wi =>
      cases hwi1 : getWp wps (i + 1) with
      | error e => rw [hwi, hwi1] at hok; simp at hok
      | ok wi1 =>
        rw [hwi, hwi1] at hok
        simp only [log_driving, Except.ok.injEq, Prod.mk.injEq] at hok
        obtain ⟨hrem', hst'⟩ := hok
        have hE1 : EntInv d0 (st.log_entries ++
            [create_log_entry trip .driving st.current_date st.current_time_decimal
              (st.current_time_decimal + chunk) wi.name
              ("Driving towards " ++ wi1.name)]) st.current_date
            (st.current_time_decimal + chunk) :=
          hE.append trip .driving wi.name ("Driving towards " ++ wi1.name)
            (by linarith)
        have hne1 := entriesOn_ne_nil_concat st.log_entries
          (create_log_entry trip .driving st.current_date st.current_time_decimal
            (st.current_time_decimal + chunk) wi.name ("Driving towards " ++ wi1.name))
        by_cases hbr : st.hours_since_break + chunk ≥ required_break_after_drive
        · rw [if_pos hbr] at hst'
          subst hst'
          have hE2 : EntInv d0 ((st.log_entries ++
              [create_log_entry trip .driving st.current_date st.current_time_decimal
                (st.current_time_decimal + chunk) wi.name
                ("Driving towards " ++ wi1.name)]) ++
              [create_log_entry trip .off_duty st.current_date
                (st.current_time_decimal + chunk)
                (st.current_time_decimal + chunk + break_duration) "Rest Area"
                "Required 30-minute break"]) st.current_date
              (st.current_time_decimal + chunk + break_duration) :=
            hE1.append trip .off_duty "Rest Area" "Required 30-minute break"
              (by rw [break_duration]; norm_num)
          refine ⟨hE2, le_rfl, by rw [required_break_after_drive]; norm_num, ?_⟩
          · intro habs
            exact absurd habs (entriesOn_ne_nil_concat
              (st.log_entries ++
                [create_log_entry trip .driving st.current_date st.current_time_decimal
                  (st.current_time_decimal + chunk) wi.name
                  ("Driving towards " ++ wi1.name)])
              (create_log_entry trip .off_duty st.current_date
                (st.current_time_decimal + chunk)
                (st.current_time_decimal + chunk + break_duration) "Rest Area"
                "Required 30-minute break"))
        · rw [if_neg hbr] at hst'
          subst hst'
          refine ⟨hE1, by show (0:ℚ) ≤ st.hours_since_break + chunk; linarith,
            lt_of_not_ge hbr, ?_⟩
          · intro habs
            exact absurd habs (entriesOn_ne_nil_concat st.log_entries
              (create_log_entry trip .driving st.current_date st.current_time_decimal
                (st.current_time_decimal + chunk) wi.name
                ("Driving towards " ++ wi1.name)))

/-- The driving loop preserves the simulation invariant, for any fuel. -/
lemma drive_loop_DInv {d0 : ℤ} (trip : Trip) (wps : List Waypoint) (i : ℕ) :
    ∀ (fuel : ℕ) (rem : ℚ) (st st' : SimState), DInv d0 st →
      drive_loop trip wps i fuel rem st = .ok st' → DInv d0 st' := by
  intro fuel
  induction fuel with
  | zero =>
      intro rem st st' h hok
      simp only [drive_loop] at hok
      by_cases hrem : rem > 0
      · rw [if_pos hrem] at hok; simp at hok
      · rw [if_neg hrem] at hok
        simp only [Except.ok.injEq] at hok
        subst hok; exact h
  | succ fuel IH =>
      intro rem st st' h hok
      simp only [drive_loop] at hok
      by_cases hrem : rem > 0
      · rw [if_pos hrem] at hok
        cases hds : drive_step trip wps i rem st with
        | error e => rw [hds] at hok; simp at hok
        | ok p =>
            obtain ⟨rem₁, st₁⟩ := p
            rw [hds] at hok
            exact IH rem₁ st₁ st' (drive_step_DInv hrem h hds) hok
      · rw [if_neg hrem] at hok
        simp only [Except.ok.injEq] at hok
        subst hok; exact h

/-- The loading stop preserves the simulation invariant. -/
lemma load_stop_DInv {d0 : ℤ} {trip : Trip} {wps : List Waypoint} {i : ℕ}
    {st st' : SimState} (h : DInv d0 st)
    (hok : load_stop trip wps i st = .ok st') : DInv d0 st' := by
  obtain ⟨hE, hsb0, hsb8, hempty⟩ := h
  simp only [load_stop] at hok
  by_cases hi : i = 0
  · rw [if_pos hi] at hok
    simp only [Except.ok.injEq] at hok
    subst hok; exact ⟨hE, hsb0, hsb8, hempty⟩
  · rw [if_neg hi] at hok
    cases hwi : getWp wps i with
    | error e => rw [hwi] at hok; simp at hok
    | ok wi =>
        rw [hwi] at hok
        simp only [Except.ok.injEq] at hok
        subst hok
        have hE1 := hE.append trip .on_duty_not_driving wi.name
          "Loading/unloading activities"
          (q := st.current_time_decimal + pickup_dropoff_duration)
          (by rw [pickup_dropoff_duration]; norm_num)
        refine ⟨hE1, hsb0, hsb8, ?_⟩
        intro habs
        exact absurd habs (entriesOn_ne_nil_concat st.log_entries
          (create_log_entry trip .on_duty_not_driving st.current_date
            st.current_time_decimal
            (st.current_time_decimal + pickup_dropoff_duration)
            wi.name "Loading/unloading activities"))

lemma entriesOn_singleton (e : LogEntry) (d : ℤ) :
    entriesOn d [e] = if e.date = d then [e] else [] := by
  by_cases h : e.date = d <;> simp [entriesOn, List.filter, h]

/-- The state assembled at lines 114-124 satisfies the invariant. -/
lemma init_DInv (trip : Trip) (d0 : ℤ) (t : ℚ) (h0 : 0 ≤ t) (h1 : t < 24) :
    DInv d0 ⟨(if t > 0 then
        [create_log_entry trip .off_duty d0 0 t trip.current_location
          "Off duty before trip start"]
      else []), d0, t, 0, 0, 0⟩ := by
  by_cases ht : t > 0
  · rw [if_pos ht]
    set e : LogEntry := create_log_entry trip .off_duty d0 0 t trip.current_location
      "Off duty before trip start" with he
    have hdate : e.date = d0 := rfl
    refine ⟨⟨?_, ?_, ?_, ?_, ?_, ?_, ?_, ?_, le_rfl⟩, le_rfl,
      by rw [required_break_after_drive]; norm_num, ?_⟩
    · intro f hf; simp only [List.mem_singleton] at hf; subst hf; rw [hdate]
    · intro f hf; simp only [List.mem_singleton] at hf; subst hf; rw [hdate]
    · intro f hf; simp only [List.mem_singleton] at hf; subst hf; exact ht
    · intro d
      rw [entriesOn_singleton]
      by_cases hd : e.date = d
      · rw [if_pos hd]; exact List.chain'_singleton e
      · rw [if_neg hd]; exact List.chain'_nil
    · intro d f hf
      rw [entriesOn_singleton] at hf
      by_cases hd : e.date = d
      · rw [if_pos hd] at hf
        simp only [List.head?_cons, Option.some.injEq] at hf
        subst hf; rfl
      · rw [if_neg hd] at hf; simp at hf
    · intro d hd0 hdc
      have hdc' : d < d0 := hdc
      omega
    · intro f hf
      rw [entriesOn_singleton, if_pos hdate] at hf
      simp only [List.getLast?_singleton, Option.some.injEq] at hf
      subst hf; rfl
    · intro habs
      rw [entriesOn_singleton, if_pos hdate] at habs
      simp at habs
    · intro habs
      rw [entriesOn_singleton, if_pos hdate] at habs
      simp at habs
  · rw [if_neg ht]
    have ht0 : t = 0 := le_antisymm (not_lt.1 ht) h0
    refine ⟨⟨?_, ?_, ?_, ?_, ?_, ?_, ?_, ?_, le_rfl⟩, le_rfl,
      by rw [required_break_after_drive]; norm_num, ?_⟩
    · intro f hf; simp at hf
    · intro f hf; simp at hf
    · intro f hf; simp at hf
    · intro d; exact List.chain'_nil
    · intro d f hf; simp [entriesOn] at hf
    · intro d hd0 hdc
      have hdc' : d < d0 := hdc
      omega
    · intro f hf; simp [entriesOn] at hf
    · intro _; exact ht0
    · intro _; exact ⟨rfl, rfl⟩

/-- Read the coverage facts off the invariant once the run has ended with
the current date closed out at or past `24:00`. -/
lemma EntInv.final {d0 cd : ℤ} {es : List LogEntry} {ct : ℚ}
    (h : EntInv d0 es cd ct) (hct : 24 ≤ ct) :
    (∀ d, contiguous (entriesOn d es)) ∧
    (∀ e ∈ es, e.start_decimal < e.end_decimal) ∧
    (∀ d e, (entriesOn d es).head? = some e → e.start_decimal = 0) ∧
    (∀ d e, (entriesOn d es).getLast? = some e → 24 ≤ e.end_decimal) ∧
    (∀ e ∈ es, d0 ≤ e.date) ∧
    (∀ d, entriesOn d es ≠ [] → ∀ d', d0 ≤ d' → d' ≤ d → entriesOn d' es ≠ []) := by
  have hcd_ne : entriesOn cd es ≠ [] := by
    intro hnil
    have := h.cur_empty hnil
    rw [this] at hct
    linarith
  refine ⟨h.chain, h.pos, h.head0, ?_, h.dates_lb, ?_⟩
  · intro d e hlast
    rcases lt_trichotomy d cd with hd | hd | hd
    · by_cases hd0 : d0 ≤ d
      · obtain ⟨x, hx, h24x⟩ := h.closed d hd0 hd
        rw [hx] at hlast
        simp only [Option.some.injEq] at hlast
        subst hlast; exact h24x
      · have hnil : entriesOn d es = [] := by
          refine entriesOn_eq_nil ?_
          intro f hf
          have := h.dates_lb f hf
          omega
        rw [hnil] at hlast; simp at hlast
    · subst hd
      rw [h.cur_last e hlast]; exact hct
    · have hnil : entriesOn d es = [] := by
        refine entriesOn_eq_nil ?_
        intro f hf
        have := h.dates_ub f hf
        omega
      rw [hnil] at hlast; simp at hlast
  · intro d hne d' hd0 hdd'
    have hdcd : d ≤ cd := by
      obtain ⟨f, hf⟩ := List.exists_mem_of_ne_nil _ hne
      obtain ⟨hfe, hfd⟩ := mem_of_mem_entriesOn hf
      rw [← hfd]
      exact h.dates_ub f hfe
    rcases lt_or_eq_of_le (le_trans hdd' hdcd) with hlt | heq
    · obtain ⟨x, hx, _⟩ := h.closed d' hd0 hlt
      intro hnil
      rw [hnil] at hx
      simp at hx
    · rw [heq]
      exact hcd_ne

/-- The segment loop preserves the simulation invariant. -/
lemma segment_loop_DInv {d0 : ℤ} (trip : Trip) (wps : List Waypoint) (fuel : ℕ) :
    ∀ (segs : List RouteSegment) (i : ℕ) (st st' : SimState), DInv d0 st →
      segment_loop trip wps fuel segs i st = .ok st' → DInv d0 st' := by
  intro segs
  induction segs with
  | nil =>
      intro i st st' h hok
      simp only [segment_loop, Except.ok.injEq] at hok
      subst hok; exact h
  | cons seg rest IH =>
      intro i st st' h hok
      simp only [segment_loop] at hok
      split at hok
      · simp at hok
      · rename_i st1 hls
        split at hok
        · simp at hok
        · rename_i st2 hdl
          exact IH (i + 1) st2 st'
            (drive_loop_DInv trip wps i fuel seg.duration_hours st1 st2
              (load_stop_DInv h hls) hdl) hok

/-- C3: for every segment list and start time in `[0, 24)`, the emitted
intervals of each calendar date chain contiguously with positive lengths
(hence, ordered by start time, are non-overlapping), every nonempty date
starts at `00:00` and ends at or past `24:00` (so each strictly interior
date is covered `[00:00, 24:00]` exactly once and the boundary dates are
covered through `24:00`), no date precedes the start date, and the dates
carrying entries form a contiguous range. -/
theorem c3_daily_coverage (trip : Trip) (rd : RouteData) (cch : ℚ) (d0 : ℤ)
    (t : ℚ) (fuel : ℕ) (L : List LogEntry) (h0 : 0 ≤ t) (h1 : t < 24)
    (hok : generate_log_entries trip rd cch d0 t fuel = .ok L) :
    (∀ d, contiguous (entriesOn d L)) ∧
    (∀ e ∈ L, e.start_decimal < e.end_decimal) ∧
    (∀ d e, (entriesOn d L).head? = some e → e.start_decimal = 0) ∧
    (∀ d e, (entriesOn d L).getLast? = some e → 24 ≤ e.end_decimal) ∧
    (∀ e ∈ L, d0 ≤ e.date) ∧
    (∀ d, entriesOn d L ≠ [] → ∀ d2, d0 ≤ d2 → d2 ≤ d → entriesOn d2 L ≠ []) := by
  simp only [generate_log_entries] at hok
  cases hsl : segment_loop trip rd.waypoints fuel rd.segments 0
      ⟨(if t > 0 then [create_log_entry trip .off_duty d0 0 t trip.current_location
        "Off duty before trip start"] else []), d0, t, 0, 0, 0⟩ with
  | error e => rw [hsl] at hok; simp at hok
  | ok st =>
      rw [hsl] at hok
      have hok2 : (if st.current_time_decimal < 24 then
          Except.ok (st.log_entries ++
            [create_log_entry trip .off_duty st.current_date st.current_time_decimal 24
              trip.dropoff_location "Trip completed, off duty"])
        else Except.ok st.log_entries) = Except.ok L := hok
      obtain ⟨hE, hsb0, hsb8, hempty⟩ :=
        segment_loop_DInv trip rd.waypoints fuel rd.segments 0 _ st
          (init_DInv trip d0 t h0 h1) hsl
      by_cases hlt : st.current_time_decimal < 24
      · rw [if_pos hlt] at hok2
        simp only [Except.ok.injEq] at hok2
        subst hok2
        exact (hE.append trip .off_duty trip.dropoff_location
          "Trip completed, off duty" hlt).final le_rfl
      · rw [if_neg hlt] at hok2
        simp only [Except.ok.injEq] at hok2
        subst hok2
        exact hE.final (not_lt.1 hlt)

/-! Waypoint-access safety. -/

lemma getWp_ok {wps : List Waypoint} {i : ℕ} (h : i < wps.length) :
    ∃ w, getWp wps i = .ok w := by
  rw [getWp, List.get?_eq_get h]
  exact ⟨wps.get ⟨i, h⟩, rfl⟩

lemma drive_step_no_oob {trip : Trip} {wps : List Waypoint} {i : ℕ}
    {rem : ℚ} {st : SimState} (h : i + 1 < wps.length) :
    drive_step trip wps i rem st ≠ .error .indexOutOfRange := by
  obtain ⟨wi, hwi⟩ := getWp_ok (Nat.lt_of_succ_lt h)
  obtain ⟨wi1, hwi1⟩ := getWp_ok h
  intro heq
  simp only [drive_step] at heq
  rw [hwi, hwi1] at heq
  split_ifs at heq <;> simp at heq

lemma drive_loop_no_oob (trip : Trip) (wps : List Waypoint) (i : ℕ)
    (h : i + 1 < wps.length) :
    ∀ (fuel : ℕ) (rem : ℚ) (st : SimState),
      drive_loop trip wps i fuel rem st ≠ .error .indexOutOfRange := by
  intro fuel
  induction fuel with
  | zero =>
      intro rem st heq
      simp only [drive_loop] at heq
      split_ifs at heq <;> simp at heq
  | succ fuel IH =>
      intro rem st heq
      simp only [drive_loop] at heq
      by_cases hrem : rem > 0
      · rw [if_pos hrem] at heq
        cases hds : drive_step trip wps i rem st with
        | error e =>
            rw [hds] at heq
            simp only [Except.error.injEq] at heq
            subst heq
            exact drive_step_no_oob h hds
        | ok p =>
            obtain ⟨rem1, st1⟩ := p
            rw [hds] at heq
            exact IH rem1 st1 heq
      · rw [if_neg hrem] at heq
        simp at heq

lemma load_stop_no_oob {trip : Trip} {wps : List Waypoint} {i : ℕ}
    {st : SimState} (h : i < wps.length) :
    load_stop trip wps i st ≠ .error .indexOutOfRange := by
  intro heq
  simp only [load_stop] at heq
  by_cases hi : i = 0
  · rw [if_pos hi] at heq; simp at heq
  · rw [if_neg hi] at heq
    obtain ⟨wi, hwi⟩ := getWp_ok h
    rw [hwi] at heq
    simp at heq

lemma segment_loop_no_oob (trip : Trip) (wps : List Waypoint) (fuel : ℕ) :
    ∀ (segs : List RouteSegment) (i : ℕ) (st : SimState),
      i + segs.length + 1 ≤ wps.length →
      segment_loop trip wps fuel segs i st ≠ .error .indexOutOfRange := by
  intro segs
  induction segs with
  | nil =>
      intro i st hlen heq
      simp only [segment_loop] at heq
      exact absurd heq (by simp)
  | cons seg rest IH =>
      intro i st hlen heq
      have hi1 : i + 1 < wps.length := by
        simp only [List.length_cons] at hlen
        omega
      simp only [segment_loop] at heq
      split at heq
      · rename_i e hls
        simp only [Except.error.injEq] at heq
        subst heq
        exact load_stop_no_oob (Nat.lt_of_succ_lt hi1) hls
      · rename_i st1 hls
        split at heq
        · rename_i e hdl
          simp only [Except.error.injEq] at heq
          subst heq
          exact drive_loop_no_oob trip wps i hi1 fuel seg.duration_hours st1 hdl
        · rename_i st2 hdl
          refine IH (i + 1) st2 ?_ heq
          simp only [List.length_cons] at hlen
          omega

/-- C10: when the route carries one more waypoint than it has segments —
as both `calculate_route` and its static mock fallback guarantee — every
waypoint access of the simulation is in bounds, so the embedding never
returns the out-of-bounds error. -/
theorem c10_waypoints_in_bounds (trip : Trip) (rd : RouteData) (cch : ℚ)
    (d0 : ℤ) (t : ℚ) (fuel : ℕ)
    (h : rd.waypoints.length = rd.segments.length + 1) :
    generate_log_entries trip rd cch d0 t fuel ≠ .error .indexOutOfRange := by
  intro heq
  simp only [generate_log_entries] at heq
  cases hsl : segment_loop trip rd.waypoints fuel rd.segments 0
      ⟨(if t > 0 then [create_log_entry trip .off_duty d0 0 t trip.current_location
        "Off duty before trip start"] else []), d0, t, 0, 0, 0⟩ with
  | error e =>
      rw [hsl] at heq
      have heq2 : (Except.error e : Except SimError (List LogEntry)) =
          Except.error SimError.indexOutOfRange := heq
      simp only [Except.error.injEq] at heq2
      subst heq2
      exact segment_loop_no_oob trip rd.waypoints fuel rd.segments 0 _
        (by omega) hsl
  | ok st =>
      rw [hsl] at heq
      have heq2 : (if st.current_time_decimal < 24 then
          Except.ok (st.log_entries ++
            [create_log_entry trip .off_duty st.current_date st.current_time_decimal 24
              trip.dropoff_location "Trip completed, off duty"])
        else Except.ok st.log_entries) = Except.error SimError.indexOutOfRange := heq
      split_ifs at heq2 <;> simp at heq2

/-- The mock fallback route indeed has one more waypoint than segments. -/
lemma get_mock_route_waypoints_length (a b c : String) :
    (get_mock_route a b c).waypoints.length =
      (get_mock_route a b c).segments.length + 1 := rfl

/-! Aggregator correctness. -/

lemma Totals.get_add (t : Totals) (s s2 : DutyStatus) (q : ℚ) :
    (t.add s q).get s2 = t.get s2 + if s2 = s then q else 0 := by
  cases s <;> cases s2 <;> simp [Totals.add, Totals.get]

lemma Totals.get_zero (s : DutyStatus) : (Totals.mk 0 0 0 0).get s = 0 := by
  cases s <;> rfl

lemma status_total_append_eq {L : List LogEntry} {e : LogEntry} {d : ℤ}
    (hd : e.date = d) (st : DutyStatus) :
    status_total (L ++ [e]) d st =
      status_total L d st + if e.duty_status = st then duration_of e else 0 := by
  rw [status_total, status_total, entriesOn_append_of_eq hd, List.filter_append]
  by_cases hs : e.duty_status = st
  · simp [List.filter, hs]
  · simp [List.filter, hs]

lemma status_total_append_ne {L : List LogEntry} {e : LogEntry} {d : ℤ}
    (hd : ¬ e.date = d) (st : DutyStatus) :
    status_total (L ++ [e]) d st = status_total L d st := by
  rw [status_total, status_total, entriesOn_append_of_ne hd]

lemma status_total_of_nil {L : List LogEntry} {d : ℤ}
    (h : entriesOn d L = []) (st : DutyStatus) : status_total L d st = 0 := by
  rw [status_total, h]
  rfl

lemma sheet_ok_append_ne {L : List LogEntry} {e : LogEntry} {s : DailyLogSheet}
    (h : sheet_ok L s) (hne : ¬ e.date = s.date_start) : sheet_ok (L ++ [e]) s := by
  obtain ⟨h1, h2⟩ := h
  refine ⟨?_, ?_⟩
  · intro st
    rw [status_total_append_ne hne]
    exact h1 st
  · rw [entriesOn_append_of_ne hne]
    exact h2

lemma sheet_ok_append_eq {L : List LogEntry} {e : LogEntry} {s : DailyLogSheet}
    (h : sheet_ok L s) (hd : e.date = s.date_start) :
    sheet_ok (L ++ [e]) (add_to_sheet e s) := by
  obtain ⟨h1, h2⟩ := h
  constructor
  · intro st
    show (s.totals.add e.duty_status (duration_of e)).get st =
      status_total (L ++ [e]) s.date_start st
    rw [Totals.get_add, status_total_append_eq hd, h1 st]
    by_cases hs : st = e.duty_status
    · rw [if_pos hs, if_pos hs.symm]
    · rw [if_neg hs, if_neg (fun hq => hs hq.symm)]
  · show ((add_to_sheet e s).segments).map (fun g => g.duration_hours) =
      (entriesOn s.date_start (L ++ [e])).map (fun f => round2 (duration_of f))
    rw [show (add_to_sheet e s).segments = s.segments ++
        [⟨s.segments.length, e.duty_status, e.remarks, e.start_time, e.end_time,
          round2 (duration_of e)⟩] from rfl]
    rw [List.map_append, entriesOn_append_of_eq hd, List.map_append, h2]
    rfl

lemma insert_entry_ok {L : List LogEntry} {e : LogEntry} :
    ∀ (acc : List DailyLogSheet),
      ((acc.map (fun s => s.date_start)).Nodup) →
      (∀ s ∈ acc, sheet_ok L s) →
      (e.date ∈ acc.map (fun s => s.date_start) ∨ entriesOn e.date L = []) →
      (∀ s ∈ insert_entry acc e, sheet_ok (L ++ [e]) s) ∧
      (insert_entry acc e).map (fun s => s.date_start) =
        (if e.date ∈ acc.map (fun s => s.date_start)
          then acc.map (fun s => s.date_start)
          else acc.map (fun s => s.date_start) ++ [e.date]) := by
  intro acc
  induction acc with
  | nil =>
      intro hnd hok hmem
      have hnil : entriesOn e.date L = [] := by
        rcases hmem with hmem | hmem
        · simp at hmem
        · exact hmem
      constructor
      · intro s hs
        simp only [insert_entry, List.mem_singleton] at hs
        subst hs
        constructor
        · intro st
          show ((Totals.mk 0 0 0 0).add e.duty_status (duration_of e)).get st =
            status_total (L ++ [e]) e.date st
          rw [Totals.get_add, Totals.get_zero, status_total_append_eq rfl,
            status_total_of_nil hnil, zero_add, zero_add]
          by_cases hs2 : st = e.duty_status
          · rw [if_pos hs2, if_pos hs2.symm]
          · rw [if_neg hs2, if_neg (fun hq => hs2 hq.symm)]
        · show ((add_to_sheet e (empty_sheet e.date)).segments).map
              (fun g => g.duration_hours) =
            (entriesOn e.date (L ++ [e])).map (fun f => round2 (duration_of f))
          rw [entriesOn_append_of_eq rfl, hnil]
          rfl
      · simp [insert_entry, add_to_sheet, empty_sheet]
  | cons s rest IH =>
      intro hnd hok hmem
      simp only [List.map_cons, List.nodup_cons] at hnd
      obtain ⟨hnds, hndr⟩ := hnd
      by_cases hd : s.date_start = e.date
      · constructor
        · intro s2 hs2
          simp only [insert_entry, if_pos hd] at hs2
          rcases List.mem_cons.1 hs2 with hs2 | hs2
          · subst hs2
            exact sheet_ok_append_eq (hok s (List.mem_cons_self s rest)) hd.symm
          · refine sheet_ok_append_ne (hok s2 (List.mem_cons_of_mem s hs2)) ?_
            intro habs
            rw [← hd] at habs
            exact hnds (habs ▸ List.mem_map_of_mem (fun x => x.date_start) hs2)
        · have hm : e.date ∈ (s :: rest).map (fun x => x.date_start) := by
            simp [hd.symm]
          rw [if_pos hm]
          simp [insert_entry, if_pos hd, add_to_sheet]
      · constructor
        · intro s2 hs2
          simp only [insert_entry, if_neg hd] at hs2
          rcases List.mem_cons.1 hs2 with hs2 | hs2
          · subst hs2
            refine sheet_ok_append_ne (hok s2 (List.mem_cons_self s2 rest)) ?_
            intro habs
            exact hd habs.symm
          · have hmem2 : e.date ∈ rest.map (fun x => x.date_start) ∨
                entriesOn e.date L = [] := by
              rcases hmem with hmem | hmem
              · simp only [List.map_cons, List.mem_cons] at hmem
                rcases hmem with hmem | hmem
                · exact absurd hmem.symm hd
                · exact Or.inl hmem
              · exact Or.inr hmem
            exact (IH hndr (fun x hx => hok x (List.mem_cons_of_mem s hx)) hmem2).1
              s2 hs2
        · have hmem2 : e.date ∈ rest.map (fun x => x.date_start) ∨
              entriesOn e.date L = [] := by
            rcases hmem with hmem | hmem
            · simp only [List.map_cons, List.mem_cons] at hmem
              rcases hmem with hmem | hmem
              · exact absurd hmem.symm hd
              · exact Or.inl hmem
            · exact Or.inr hmem
          have hdr := (IH hndr (fun x hx => hok x (List.mem_cons_of_mem s hx)) hmem2).2
          simp only [insert_entry, if_neg hd, List.map_cons, hdr]
          by_cases hm2 : e.date ∈ rest.map (fun x => x.date_start)
          · rw [if_pos hm2, if_pos (by simp [hm2])]
          · rw [if_neg hm2, if_neg (by
              simp only [List.map_cons, List.mem_cons]
              rintro (h | h)
              · exact hd h.symm
              · exact hm2 h)]
            simp

lemma sheets_ok_insert {L : List LogEntry} {e : LogEntry} {acc : List DailyLogSheet}
    (h : sheets_ok L acc) : sheets_ok (L ++ [e]) (insert_entry acc e) := by
  obtain ⟨hnd, hok, hcov⟩ := h
  have hmem : e.date ∈ acc.map (fun s => s.date_start) ∨ entriesOn e.date L = [] := by
    by_cases hm : e.date ∈ acc.map (fun s => s.date_start)
    · exact Or.inl hm
    · refine Or.inr (entriesOn_eq_nil ?_)
      intro f hf hfd
      exact hm (hfd ▸ hcov f hf)
  obtain ⟨hok2, hdates⟩ := insert_entry_ok acc hnd hok hmem
  refine ⟨?_, hok2, ?_⟩
  · rw [hdates]
    split_ifs with hm
    · exact hnd
    · rw [List.nodup_append]
      refine ⟨hnd, List.nodup_singleton _, ?_⟩
      intro x hx hx2
      simp only [List.mem_singleton] at hx2
      subst hx2
      exact hm hx
  · intro f hf
    rcases List.mem_append.1 hf with hf | hf
    · have := hcov f hf
      rw [hdates]
      split_ifs with hm
      · exact this
      · exact List.mem_append.2 (Or.inl this)
    · simp only [List.mem_singleton] at hf
      subst hf
      rw [hdates]
      split_ifs with hm
      · exact hm
      · exact List.mem_append.2 (Or.inr (by simp))

lemma sheets_ok_empty : sheets_ok ([] : List LogEntry) [] := by
  refine ⟨List.nodup_nil, ?_, ?_⟩ <;> intro x hx <;> simp at hx

lemma sheets_ok_foldl :
    ∀ (L2 L1 : List LogEntry) (acc : List DailyLogSheet),
      sheets_ok L1 acc → sheets_ok (L1 ++ L2) (L2.foldl insert_entry acc) := by
  intro L2
  induction L2 with
  | nil =>
      intro L1 acc h
      simpa using h
  | cons e rest IH =>
      intro L1 acc h
      have h3 := IH (L1 ++ [e]) (insert_entry acc e) (sheets_ok_insert h)
      simpa [List.foldl_cons, List.append_assoc] using h3

/-- C7: every sheet the aggregator produces records, for each status, the
sum of the unrounded durations of that date's entries with that status, and
lists, per entry in order, the rounded duration; `duration_of` is the
minutes-difference formula with the `+ 1440` midnight-crossing correction. -/
theorem c7_aggregator_durations (L : List LogEntry) (s : DailyLogSheet)
    (hs : s ∈ generate_daily_log_sheets L) (st : DutyStatus) :
    s.totals.get st = status_total L s.date_start st ∧
    s.segments.map (fun g => g.duration_hours) =
      (entriesOn s.date_start L).map (fun e => round2 (duration_of e)) := by
  have h := sheets_ok_foldl L [] [] sheets_ok_empty
  rw [List.nil_append] at h
  have hsok := h.2.1 s hs
  exact ⟨hsok.1 st, hsok.2⟩

lemma decide_off_drv : decide (DutyStatus.off_duty = DutyStatus.driving) = false := rfl

lemma decide_drv_drv : decide (DutyStatus.driving = DutyStatus.driving) = true := rfl

lemma decide_off_odn :
    decide (DutyStatus.off_duty = DutyStatus.on_duty_not_driving) = false := rfl

lemma decide_drv_odn :
    decide (DutyStatus.driving = DutyStatus.on_duty_not_driving) = false := rfl

/-! The claim theorems for the scenario and error-handling claims. -/

/-- C1 (code bug): the ceiling invariant fails on the code.  For a single
12 h segment starting at 00:00 the boundary branch logs the remaining time
to midnight as driving, so the first date accumulates 23.5 h of driving —
far beyond the 11 h drive ceiling (and its 23.5 h of drive-plus-loading
duty exceed the 14 h duty ceiling). -/
theorem c1_daily_ceilings_violated :
    generate_log_entries tripX (routeX 12) 0 0 0 2 = .ok logC ∧
    status_duration_sum logC 0 .driving = 47/2 ∧
    ¬ status_duration_sum logC 0 .driving ≤ max_drive_hours ∧
    ¬ status_duration_sum logC 0 .driving +
        status_duration_sum logC 0 .on_duty_not_driving ≤ max_duty_hours := by
  refine ⟨runC, ?_, ?_, ?_⟩ <;>
    norm_num [status_duration_sum, entriesOn, logC, create_log_entry,
      List.filter, max_drive_hours, max_duty_hours, decide_off_drv, decide_drv_drv,
      decide_off_odn, decide_drv_odn]

/-- C2 (code bug): the break invariant fails on the code.  In the same run
the third emitted entry is a single driving interval of 15.5 h (from 08:30
to 24:00), exceeding the 8 h limit, and the entry that follows it is the
10-hour rest, not a 0.5 h break. -/
theorem c2_break_rule_violated :
    generate_log_entries tripX (routeX 12) 0 0 0 2 = .ok logC ∧
    (logC.get? 2).map (fun e => (e.duty_status, e.end_decimal - e.start_decimal)) =
      some (.driving, 31/2) ∧
    (logC.get? 3).map (fun e => (e.duty_status, e.end_decimal - e.start_decimal)) =
      some (.off_duty, 10) ∧
    ¬ (31 : ℚ)/2 ≤ required_break_after_drive := by
  refine ⟨runC, ?_, ?_, ?_⟩ <;>
    norm_num [logC, create_log_entry, required_break_after_drive]

/-- C4 (code bug): for a single 8 h segment starting at 16:00 the driving
ends exactly at midnight and the mandatory 30-minute break is emitted as
24.0-24.5 dated the same day, so its end time leaves `[00:00, 24:00]`. -/
theorem c4_interval_escapes_day :
    generate_log_entries tripX (routeX 8) 0 0 16 1 = .ok logM ∧
    (logM.get? 2).map (fun e => (e.date, e.start_decimal, e.end_decimal, e.duty_status)) =
      some (0, 24, 49/2, .off_duty) ∧
    ¬ (49 : ℚ)/2 ≤ 24 := by
  refine ⟨runM, ?_, ?_⟩ <;> norm_num [logM, create_log_entry]

/-- C5 (Scenario A): a single 2 h segment with start time 08:00 yields
exactly `OffDuty 00:00-08:00`, `Driving 08:00-10:00`, `OffDuty 10:00-24:00`,
and the aggregator builds exactly one sheet with 2 h driving and 22 h off
duty. -/
theorem c5_scenario_a :
    generate_log_entries tripX (routeX 2) 0 0 8 1 = .ok logA ∧
    (generate_daily_log_sheets logA).map
      (fun s => (s.totals.driving, s.totals.off_duty)) = [(2, 22)] := by
  refine ⟨runA, ?_⟩
  norm_num [generate_daily_log_sheets, insert_entry, add_to_sheet, empty_sheet,
    duration_of, Totals.add, logA, create_log_entry, tripX, dtt0, dtt8, dtt10, dtt24]

/-- C6 (code bug): for a single 12 h segment starting at 00:00 the log does
split at the 8 h break (0.5 h off-duty), does roll the day over with a
10-hour rest and does span exactly two dates, but the second split happens
at midnight, not at the 11 h ceiling: the split driving piece runs 08:30 to
24:00 and the first date totals 23.5 h of driving. -/
theorem c6_scenario_c_split :
    generate_log_entries tripX (routeX 12) 0 0 0 2 = .ok logC ∧
    logC.map (fun e => e.date) = [0, 0, 0, 1, 1] ∧
    (logC.get? 1).map (fun e => (e.duty_status, e.start_decimal, e.end_decimal)) =
      some (.off_duty, 8, 17/2) ∧
    (logC.get? 3).map
        (fun e => (e.duty_status, e.date, e.start_decimal, e.end_decimal)) =
      some (.off_duty, 1, 0, 10) ∧
    status_duration_sum logC 0 .driving = 47/2 := by
  refine ⟨runC, ?_, ?_, ?_, ?_⟩ <;>
    norm_num [logC, create_log_entry, status_duration_sum, entriesOn, List.filter,
      decide_off_drv, decide_drv_drv, decide_off_odn, decide_drv_odn]

/-- C8 (corrected, counterexample): called on an empty segment list the
simulator does not reject; it produces the two framing off-duty intervals. -/
theorem c8_counterexample_no_rejection :
    generate_log_entries tripX ⟨100, 0, [], wpsX⟩ 0 0 8 1 = .ok logE ∧
    logE.length = 2 :=
  ⟨runE, rfl⟩

/-- C8 (amended): the simulator performs no input validation: an empty
segment list yields just the two framing off-duty intervals, and a
negative-duration segment is silently skipped, yielding the same output;
rejection is left to callers. -/
theorem c8_amended_no_validation (trip : Trip) (td tt cch : ℚ)
    (wps : List Waypoint) (d0 : ℤ) (t : ℚ) (fuel : ℕ)
    (h0 : 0 < t) (h1 : t < 24) (q m : ℚ) (hq : q < 0) :
    generate_log_entries trip ⟨td, tt, [], wps⟩ cch d0 t fuel =
      .ok [create_log_entry trip .off_duty d0 0 t trip.current_location
            "Off duty before trip start",
          create_log_entry trip .off_duty d0 t 24 trip.dropoff_location
            "Trip completed, off duty"] ∧
    generate_log_entries trip ⟨td, tt, [⟨q, m⟩], wps⟩ cch d0 t fuel =
      .ok [create_log_entry trip .off_duty d0 0 t trip.current_location
            "Off duty before trip start",
          create_log_entry trip .off_duty d0 t 24 trip.dropoff_location
            "Trip completed, off duty"] := by
  have hq2 : ¬ q > 0 := not_lt.mpr hq.le
  constructor
  · simp [generate_log_entries, segment_loop, h0, h1]
  · simp [generate_log_entries, segment_loop, load_stop, drive_loop_nonpos hq2,
      h0, h1]

lemma c8_amended_witness :
    generate_log_entries tripX ⟨100, 0, [], wpsX⟩ 0 0 8 1 =
      .ok [create_log_entry tripX .off_duty 0 0 8 tripX.current_location
            "Off duty before trip start",
          create_log_entry tripX .off_duty 0 8 24 tripX.dropoff_location
            "Trip completed, off duty"] ∧
    generate_log_entries tripX ⟨100, 0, [⟨-1, 0⟩], wpsX⟩ 0 0 8 1 =
      .ok [create_log_entry tripX .off_duty 0 0 8 tripX.current_location
            "Off duty before trip start",
          create_log_entry tripX .off_duty 0 8 24 tripX.dropoff_location
            "Trip completed, off duty"] :=
  c8_amended_no_validation tripX 100 0 0 wpsX 0 8 1 (by norm_num) (by norm_num)
    (-1) 0 (by norm_num)

/-- C9: with the start date and clock position explicit inputs, the
simulator is a pure function of its arguments, so two runs on identical
inputs produce identical interval sequences. -/
theorem c9_deterministic (trip₁ trip₂ : Trip) (rd₁ rd₂ : RouteData)
    (cch₁ cch₂ : ℚ) (d₁ d₂ : ℤ) (t₁ t₂ : ℚ) (fuel₁ fuel₂ : ℕ)
    (htrip : trip₁ = trip₂) (hrd : rd₁ = rd₂) (hc : cch₁ = cch₂)
    (hd : d₁ = d₂) (ht : t₁ = t₂) (hf : fuel₁ = fuel₂) :
    generate_log_entries trip₁ rd₁ cch₁ d₁ t₁ fuel₁ =
      generate_log_entries trip₂ rd₂ cch₂ d₂ t₂ fuel₂ := by
  subst htrip; subst hrd; subst hc; subst hd; subst ht; subst hf; rfl

lemma c9_witness :
    generate_log_entries tripX (routeX 2) 0 0 8 1 =
      generate_log_entries tripX (routeX 2) 0 0 8 1 :=
  c9_deterministic tripX tripX (routeX 2) (routeX 2) 0 0 0 0 8 8 1 1
    rfl rfl rfl rfl rfl rfl

lemma c3_witness :
    (∀ d, contiguous (entriesOn d logA)) ∧
    (∀ e ∈ logA, e.start_decimal < e.end_decimal) ∧
    (∀ d e, (entriesOn d logA).head? = some e → e.start_decimal = 0) ∧
    (∀ d e, (entriesOn d logA).getLast? = some e → 24 ≤ e.end_decimal) ∧
    (∀ e ∈ logA, (0 : ℤ) ≤ e.date) ∧
    (∀ d, entriesOn d logA ≠ [] →
      ∀ d2, (0 : ℤ) ≤ d2 → d2 ≤ d → entriesOn d2 logA ≠ []) :=
  c3_daily_coverage tripX (routeX 2) 0 0 8 1 logA (by norm_num) (by norm_num) runA

lemma c7_witness :
    sheetW.totals.get .driving = status_total [entW] sheetW.date_start .driving ∧
    sheetW.segments.map (fun g => g.duration_hours) =
      (entriesOn sheetW.date_start [entW]).map (fun e => round2 (duration_of e)) :=
  c7_aggregator_durations [entW] sheetW
    (by simp [generate_daily_log_sheets, insert_entry, entW, sheetW]) .driving

lemma c10_witness :
    generate_log_entries tripX
      (get_mock_route "Origin City" "Pickup City" "Dropoff City") 0 0 8 3 ≠
      .error .indexOutOfRange :=
  c10_waypoints_in_bounds tripX
    (get_mock_route "Origin City" "Pickup City" "Dropoff City") 0 0 8 3 rfl

end ELD
